import Mathlib

/-!
Verification of the Gas-monitor chain-following ingester
(`src/services/poller/cmd/poller/main.go`).

The poller's `main` is embedded shallowly: the environment, the chain RPC,
the broker and the JSON decoder are oracles (ordinary function arguments),
the loop body is a pure state-transition function, and Go's `math/big`
arithmetic is modelled exactly (`big.Int` as ℤ/ℕ, `big.Float` as ℚ with
explicit round-to-nearest-even at the precision `math/big` assigns).
-/

namespace GasMonitor

attribute [local semireducible] Rat.mul Rat.inv Rat.add Rat.sub

set_option maxRecDepth 100000

/-! ## Small helpers: ASCII lower-casing and hex encoding

`strings.ToLower` is applied only to `0x…`-hex address strings in the
poller, so the ASCII case mapping is the relevant fragment. -/

/-- Models `strings.ToLower` on the ASCII strings the poller feeds it. -/
def lowerStr (s : String) : String :=
  String.mk (s.data.map Char.toLower)

/-- Lower-case hex digit for a nibble, as `encoding/hex` produces. -/
def hexDigit (n : Nat) : Char :=
  if n < 10 then Char.ofNat (48 + n) else Char.ofNat (87 + n)

/-- One byte as two lower-case hex digits (`encoding/hex.EncodeToString`). -/
def hexByte (b : Nat) : String :=
  String.mk [hexDigit (b / 16 % 16), hexDigit (b % 16)]

/-- Models `hexpkg.EncodeToString` on a byte slice (bytes as `Nat < 256`). -/
def hexEncode (bs : List Nat) : String :=
  String.join (bs.map hexByte)

/-! ## Exact model of `math/big` floating-point values

`big.Float` stores a binary float with an explicit mantissa precision and
rounds to nearest, ties to even. The poller creates `big.Float`s with
receiver precision 0, so each operation's result precision follows the
documented rules: `SetInt` uses `max 64 BitLen`, `SetInt64` uses 64,
`NewFloat` (from a `float64`) uses 53, and `Mul`/`Quo` on a prec-0
receiver use the larger of the operand precisions. `Float64()` rounds the
value to the nearest IEEE-754 binary64 (53-bit) value. All magnitudes in
play are far inside the binary64 exponent range, so rounding of the
mantissa is the whole story; values are represented by the exact rational
they denote. -/

/-- Fuelled ⌊log₂⌋ on positive naturals (fuel bounds the recursion depth;
any fuel ≥ bit-length of `n` gives the exact value). -/
def log2Fuel : Nat → Nat → Nat
  | 0, _ => 0
  | fuel + 1, n => if n ≤ 1 then 0 else log2Fuel fuel (n / 2) + 1

/-- ⌊log₂ n⌋ for `n ≥ 1` (0 at 0). The fuel `n.succ` is always enough. -/
def natLog2 (n : Nat) : Nat := log2Fuel (n + 1) n

/-- Number of bits of `n`, i.e. `big.Int.BitLen`. -/
def bitLen (n : Nat) : Nat :=
  if n = 0 then 0 else natLog2 n + 1

/-- Smallest `k` with `n ≤ 2 ^ k` (Go `big` uses this shape for scaling). -/
def ceilLog2 (n : Nat) : Nat :=
  if n ≤ 1 then 0 else natLog2 (n - 1) + 1

/-- Floor of a rational as an integer (`num` floor-divided by `den`;
written without the `FloorRing` instance so the kernel can evaluate it). -/
def ratFloor (q : ℚ) : ℤ := q.num.fdiv (q.den : ℤ)

/-- Ceiling of a rational as an integer. -/
def ratCeil (q : ℚ) : ℤ := -(ratFloor (-q))

/-- `2 ^ n` in ℚ by structural recursion (kernel-evaluable). -/
def pow2Q : Nat → ℚ
  | 0 => 1
  | n + 1 => 2 * pow2Q n

/-- `q · 2 ^ s` for an integer exponent `s`. -/
def scale2 (q : ℚ) (s : ℤ) : ℚ :=
  match s with
  | Int.ofNat n => q * pow2Q n
  | Int.negSucc n => q / pow2Q (n + 1)

/-- ⌊log₂ q⌋ of a positive rational, as an integer. -/
def ilogQ (q : ℚ) : ℤ :=
  if 1 ≤ q then (natLog2 (Int.toNat (ratFloor q)) : ℤ)
  else -(ceilLog2 (Int.toNat (ratCeil q⁻¹)) : ℤ)

/-- Round a rational to an integer, nearest, ties to even —
the `big.Float` default rounding mode (`ToNearestEven`). -/
def roundHalfEven (x : ℚ) : ℤ :=
  let f := ratFloor x
  let r := x - (f : ℚ)
  if r < 1 / 2 then f
  else if 1 / 2 < r then f + 1
  else if f % 2 = 0 then f else f + 1

/-- Round a positive rational to a `p`-bit mantissa, nearest-even. -/
def rndPos (p : Nat) (q : ℚ) : ℚ :=
  let e : ℤ := ilogQ q
  let s : ℤ := (p : ℤ) - 1 - e
  scale2 (roundHalfEven (scale2 q s) : ℚ) (-s)

/-- Round a rational to a `p`-bit mantissa, nearest-even (sign-symmetric,
exactly `big.Float`'s rounding for magnitudes inside the binary64 range). -/
def rnd (p : Nat) (q : ℚ) : ℚ :=
  if q = 0 then 0
  else if 0 < q then rndPos p q
  else -(rndPos p (-q))

/-- Precision `big.Float.SetInt` assigns to a prec-0 receiver:
the larger of 64 and the integer's bit length. -/
def setIntPrec (n : Nat) : Nat := max 64 (bitLen n)

/-- Value of `new(big.Float).Quo(x, y)` (prec-0 receiver): the quotient
rounded to the larger of the operand precisions. -/
def bigFloatQuoVal (px py : Nat) (x y : ℚ) : ℚ :=
  rnd (max px py) (x / y)

/-- Value of `new(big.Float).Mul(x, y)` (prec-0 receiver): the product
rounded to the larger of the operand precisions. -/
def bigFloatMulVal (px py : Nat) (x y : ℚ) : ℚ :=
  rnd (max px py) (x * y)

/-- Value of `big.Float.Float64()`: rounding to 53 mantissa bits. -/
def float64Val (q : ℚ) : ℚ := rnd 53 q

/-! ## Chain data as the poller reads it

`Tx`, `Receipt` and `Block` carry exactly the fields `main.go` touches.
Sender recovery (`types.Sender` with a chain-id signer) is an external
cryptographic routine of go-ethereum; its outcome for a transaction is
modelled as the oracle field `sender?` (`none` = recovery error). -/

structure Tx where
  /-- `tx.To()`: `none` for contract creation, else the recipient hex. -/
  to? : Option String
  /-- `tx.Hash().Hex()` — used as the receipt-lookup key. -/
  hash : String
  /-- `tx.GasPrice()` (`none` models a nil pointer). -/
  gasPrice? : Option Nat
  /-- `tx.Data()` call-data bytes. -/
  data : List Nat
  /-- Outcome of `types.Sender(signer, tx)`: recovered address hex or error. -/
  sender? : Option String
  deriving DecidableEq

structure Receipt where
  /-- `rec.EffectiveGasPrice` (`none` models a nil pointer). -/
  effectiveGasPrice? : Option Nat
  /-- `rec.GasUsed`. -/
  gasUsed : Nat
  /-- `rec.Status` — present on go-ethereum receipts, never read by the poller. -/
  status : Nat
  deriving DecidableEq

structure Block where
  /-- `blk.Number().Uint64()`. -/
  number : Nat
  /-- `blk.Time()`. -/
  time : Nat
  /-- `blk.BaseFee()` in wei. -/
  baseFee : Nat
  /-- `blk.Transactions()` in included order. -/
  txs : List Tx
  deriving DecidableEq

/-! ## Fee calculation (main.go lines 147–170) -/

/-- Lines 148–153: `effPriceWei` starts as zero, takes the receipt's
effective gas price when non-nil, else the transaction's gas price when
non-nil. -/
def effPriceWeiOf (rec : Receipt) (tx : Tx) : Nat :=
  match rec.effectiveGasPrice? with
  | some p => p
  | none =>
    match tx.gasPrice? with
    | some g => g
    | none => 0

/-- Lines 155–156: `priorityWei = effPriceWei - baseFeeWei`, clamped to 0
when negative (`Sign() < 0`). -/
def priorityWeiOf (effPriceWei baseFeeWei : ℤ) : ℤ :=
  let p := effPriceWei - baseFeeWei
  if p < 0 then 0 else p

/-- Lines 158–164: an integer wei amount divided by `NewFloat(1e9)`
(precision 53, `1e9` exact) via a prec-0 `Quo`, then `Float64()`. -/
def gweiFloatOf (n : Nat) : ℚ :=
  float64Val (bigFloatQuoVal (setIntPrec n) 53 (n : ℚ) 1000000000)

/-- Lines 166–170: `costWeiF = SetInt(effPriceWei) * SetInt64(gasUsed)`
(prec-0 `Mul`), divided by `NewFloat(1e18)` (precision 53, `1e18` exact)
via a prec-0 `Quo`, then `Float64()`. -/
def costEthOf (effPriceWei gasUsed : Nat) : ℚ :=
  let costWeiF := bigFloatMulVal (setIntPrec effPriceWei) 64
      (effPriceWei : ℚ) (gasUsed : ℚ)
  float64Val (bigFloatQuoVal (max (setIntPrec effPriceWei) 64) 53
      costWeiF 1000000000000000000)

/-! ## The outbound event (the payload literal, lines 171–185) -/

structure Event where
  tenantId : String
  contract : String
  txHash : String
  blockNumber : Nat
  timestamp : Nat
  fromAddr : String
  toAddr : String
  methodSignature : String
  gasUsed : Nat
  effectiveGasPriceGwei : ℚ
  baseFeeGwei : ℚ
  priorityFeeGwei : ℚ
  costEth : ℚ
  deriving DecidableEq

/-- Lines 134–185: build the payload for a matched transaction from its
receipt and containing block (`toLow` is the already-lowercased recipient,
the `to` local of the Go code). -/
def buildEvent (tenant : String) (blk : Block) (tx : Tx) (toLow : String)
    (rec : Receipt) : Event :=
  let fromAddr :=
    match tx.sender? with
    | some a => lowerStr a
    | none => ""
  let methodSig :=
    if 4 ≤ tx.data.length then "0x" ++ hexEncode (tx.data.take 4) else ""
  let effPriceWei := effPriceWeiOf rec tx
  let baseFeeWei := blk.baseFee
  let priorityWei := priorityWeiOf (effPriceWei : ℤ) (baseFeeWei : ℤ)
  { tenantId := tenant
    contract := toLow
    txHash := tx.hash
    blockNumber := blk.number
    timestamp := blk.time
    fromAddr := fromAddr
    toAddr := toLow
    methodSignature := methodSig
    gasUsed := rec.gasUsed
    effectiveGasPriceGwei := gweiFloatOf effPriceWei
    baseFeeGwei := gweiFloatOf baseFeeWei
    priorityFeeGwei := gweiFloatOf priorityWei.toNat
    costEth := costEthOf effPriceWei rec.gasUsed }

/-- Lines 122–188, one transaction of a fetched block: skip contract
creations, lower-case the recipient, filter by the watch set, fetch the
receipt (`none` = RPC error, the transaction is skipped), then build the
payload. `some ev` means one message is handed to the producer. -/
def processTx (tenant : String) (targets : String → Bool)
    (receiptOf : String → Option Receipt) (blk : Block) (tx : Tx) :
    Option Event :=
  match tx.to? with
  | none => none
  | some toHex =>
    let toLow := lowerStr toHex
    if targets toLow then
      match receiptOf tx.hash with
      | some rec => some (buildEvent tenant blk tx toLow rec)
      | none => none
    else none

/-! ## The scan loop (main.go lines 105–192)

One iteration of the outer `for` is `scanIter`; its oracles are the head
read, the per-number block fetch, the receipt fetch, the snapshot of the
watch map the iteration sees, and the broker's acknowledgements. The only
`log.Printf` calls inside the loop are the head-read error (line 108) and
the per-block fetch error (line 119), so `LogEntry` has exactly those two
constructors. `fetched` is a ghost trace recording every block number the
loop asked the RPC for (`client.BlockByNumber` at line 117). -/

inductive LogEntry where
  /-- Line 108: `log.Printf("block err: %v", err)` on a head-read failure. -/
  | headErr : LogEntry
  /-- Line 119: `log.Printf("block %d err: %v", bn, err)` on a block-fetch
  failure. -/
  | blockErr (bn : Nat) : LogEntry
  deriving DecidableEq

structure IterInput where
  /-- Result of `client.BlockByNumber(ctx, nil)` (line 106); `none` = error. -/
  headRes : Option Block
  /-- Result of `client.BlockByNumber(ctx, bn)` (line 117) per number. -/
  fetch : Nat → Option Block
  /-- Result of `client.TransactionReceipt` (line 130) per tx hash. -/
  receiptOf : String → Option Receipt
  /-- Membership snapshot of the `targets` map (line 127). -/
  targets : String → Bool
  /-- Broker acknowledgement for `producer.SendMessage` (line 188).
  The code discards all three return values, so this oracle is unused. -/
  sendRes : Event → Bool

structure ScanState where
  /-- The `last` variable: the cursor (lines 103, 112, 116, 191). -/
  last : Nat
  /-- Every event handed to `producer.SendMessage`, in order. -/
  events : List Event
  /-- The loop's log output, in order. -/
  log : List LogEntry
  /-- Ghost trace: block numbers requested from the RPC at line 117. -/
  fetched : List Nat
  deriving DecidableEq

/-- Lines 117–189, the body of the inner `for bn := last+1; …` loop:
fetch block `bn`; on failure log and skip only this number; on success
run every transaction through `processTx` and hand each match to the
producer (appending to `events`). -/
def processBlock (tenant : String) (inp : IterInput) (s : ScanState)
    (bn : Nat) : ScanState :=
  match inp.fetch bn with
  | none =>
    { s with
      fetched := s.fetched ++ [bn]
      log := s.log ++ [LogEntry.blockErr bn] }
  | some blk =>
    { s with
      fetched := s.fetched ++ [bn]
      events := s.events ++
        blk.txs.filterMap (processTx tenant inp.targets inp.receiptOf blk) }

/-- Lines 106–191, one iteration of the outer loop: read the head
(failure: log, sleep, continue); if `head ≤ last` idle; otherwise process
block numbers `last+1 … head` in ascending order and then set
`last = head.NumberU64()` (line 191) regardless of per-block failures. -/
def scanIter (tenant : String) (s : ScanState) (inp : IterInput) :
    ScanState :=
  match inp.headRes with
  | none => { s with log := s.log ++ [LogEntry.headErr] }
  | some head =>
    if head.number ≤ s.last then s
    else
      let s1 := (List.range' (s.last + 1) (head.number - s.last)).foldl
        (processBlock tenant inp) s
      { s1 with last := head.number }

/-- The scan loop run over a finite schedule of iteration oracles. -/
def scanRun (tenant : String) (inputs : List IterInput) (s : ScanState) :
    ScanState :=
  inputs.foldl (scanIter tenant) s

/-- Lines 98–103: the cursor starts at the current head's number; no
events, no log, nothing fetched yet. -/
def initState (head : Block) : ScanState :=
  { last := head.number, events := [], log := [], fetched := [] }

/-- The most recent successfully observed head number after a schedule,
starting from the head `h0` read at startup (line 99). -/
def lastObserved (h0 : Nat) (inputs : List IterInput) : Nat :=
  inputs.foldl
    (fun acc i =>
      match i.headRes with
      | some b => b.number
      | none => acc) h0

/-- The numbers of the successfully observed heads of a schedule. -/
def observedHeads (inputs : List IterInput) : List Nat :=
  inputs.filterMap (fun i => i.headRes.map Block.number)

/-- The chain-growth assumption of the spec (§1 non-goals: no reorgs):
successive head observations, starting from the startup head, never
decrease. -/
def headsChain (h0 : Nat) (inputs : List IterInput) : Prop :=
  List.Chain' (fun a b => a ≤ b) (h0 :: observedHeads inputs)

/-- Block-fetch consistency: a block returned for number `bn` carries
number `bn` (the RPC answers the question it was asked). -/
def fetchConsistent (inp : IterInput) : Prop :=
  ∀ bn blk, inp.fetch bn = some blk → blk.number = bn

/-! ## Configuration (main.go lines 21–38) -/

/-- Lines 21–27: `getenv(key, def)` returns the environment value unless
it is empty, else the default. Go's `os.Getenv` yields `""` for an unset
variable, so the environment is a total map to strings. -/
def getenv (env : String → String) (key defv : String) : String :=
  if env key = "" then defv else env key

structure Config where
  broker : String
  topic : String
  rpcURL : String
  tenant : String
  deriving DecidableEq

/-- Lines 31–38: read the four configuration values; `log.Fatal` (modelled
as `none`) only when `ETH_RPC_URL` or `TENANT_ID` is empty. `KAFKA_BROKER`
and `KAFKA_TOPIC` fall back to defaults. -/
def loadConfig (env : String → String) : Option Config :=
  let broker := getenv env "KAFKA_BROKER" "kafka:9092"
  let topic := getenv env "KAFKA_TOPIC" "onchain-gas"
  let rpcURL := getenv env "ETH_RPC_URL" ""
  let tenant := getenv env "TENANT_ID" ""
  if rpcURL = "" ∨ tenant = "" then none
  else some { broker := broker, topic := topic, rpcURL := rpcURL, tenant := tenant }

/-! ## Bootstrap loader (main.go lines 40–60)

The HTTP response body and `encoding/json.Unmarshal` are oracles:
`resp = none` is a transport error (line 46). `decode body` is the
outcome of `Unmarshal(body, &out)`: its first component is the list of
`contract` strings that ended up in `out.Items` — on an error,
`encoding/json` still "completes the unmarshaling as best it can", so a
fully malformed body or a wrong top-level shape leaves the zero value
(`Items = nil`, the empty list here) while a valid-JSON body with
mismatched element types can leave a partial, zero-valued population —
and its second component is whether an error was returned. Line 55
discards that error (`_ = encodingjson.Unmarshal…`), so the seeded
registry depends only on the populated items. -/

inductive BootLog where
  /-- Line 47: `log.Printf("bootstrap watches: %v", err)`. -/
  | bootstrapErr : BootLog
  /-- Line 59: `log.Printf("loaded %d watches", len(out.Items))`. -/
  | loaded (n : Nat) : BootLog
  deriving DecidableEq

/-- Lines 43–60: seed the `targets` set (as the list of lower-cased
contract addresses made members) and produce the bootstrap log. The
error component of `decode` is dropped exactly as line 55 drops
`Unmarshal`'s return value, and line 59 logs the length of whatever
`out.Items` holds. -/
def bootstrapTargets (resp : Option String)
    (decode : String → List String × Bool) :
    List String × List BootLog :=
  match resp with
  | none => ([], [BootLog.bootstrapErr])
  | some body =>
    let items := (decode body).1
    (items.map lowerStr, [BootLog.loaded items.length])

/-! ## The watch registry under concurrency (main.go lines 122–129 and
195–217)

The `targets` map is read by the scan loop (`targets[to]`, line 127) and
mutated by the consumer-group goroutine (`h.targets[address] = true` /
`delete(h.targets, address)`, lines 210–212) with no synchronization
anywhere in the program. A Go map write is not atomic: the runtime sets a
write-in-progress flag (`hashWriting`) for the duration of
`mapassign`/`mapdelete`, and a concurrent `mapaccess` that sees the flag
is a read of a partially-applied mutation (the runtime throws
"concurrent map read and map write"). `RegStep` is the interleaving
semantics of exactly these three program points: the subscriber's
mutation split into its begin/commit halves, and the scanner's read,
which the code performs without acquiring anything. -/

/-- A mutation of the `targets` map, as `ConsumeClaim` performs it
(lines 209–213). -/
inductive RegOp where
  | add (addr : String) : RegOp
  | remove (addr : String) : RegOp
  deriving DecidableEq

/-- Effect of a committed mutation on the membership set
(`targets[address] = true` / `delete(targets, address)`). -/
def applyRegOp : RegOp → List String → List String
  | RegOp.add a, l => if a ∈ l then l else a :: l
  | RegOp.remove a, l => l.filter (fun x => x ≠ a)

/-- Lines 200–213 of `ConsumeClaim`: decode a watch-request message,
drop it when the tenant differs, and turn the action into a registry
mutation (unknown actions do nothing). -/
structure WatchMsg where
  tenantId : String
  contract : String
  action : String
  deriving DecidableEq

def consumeWatchMsg (tenant : String) (msg : WatchMsg) : Option RegOp :=
  if msg.tenantId ≠ tenant then none
  else
    let address := lowerStr msg.contract
    if msg.action = "add" then some (RegOp.add address)
    else if msg.action = "remove" then some (RegOp.remove address)
    else none

structure RegState where
  /-- Committed membership of the `targets` map. -/
  members : List String
  /-- A mutation whose write is in progress (the runtime's `hashWriting`
  flag is set): `mapassign`/`mapdelete` has begun but not completed. -/
  pending : Option RegOp
  /-- Set once the scanner's `targets[to]` read has executed while a
  mutation was in progress: the read observed a partially-applied
  mutation (the Go runtime aborts with "concurrent map read and map
  write" at this point). -/
  tornRead : Bool
  deriving DecidableEq

/-- Interleaved executions of the scanner's unguarded read (line 127) and
the subscriber's unguarded write (lines 210–212). No step acquires or
releases a lock because the program contains none. -/
inductive RegStep : RegState → RegState → Prop where
  /-- The subscriber goroutine starts `mapassign`/`mapdelete` for `op`. -/
  | subBegin (s : RegState) (op : RegOp) (h : s.pending = none) :
      RegStep s { s with pending := some op }
  /-- The subscriber goroutine completes the mutation. -/
  | subCommit (s : RegState) (op : RegOp) (h : s.pending = some op) :
      RegStep s
        { members := applyRegOp op s.members
          pending := none
          tornRead := s.tornRead }
  /-- The scan loop evaluates `targets[to]` — at any time, since it holds
  no lock. Reading while a write is in progress is a torn read. -/
  | scanRead (s : RegState) (a : String) :
      RegStep s (if s.pending = none then s else { s with tornRead := true })

/-- The registry as the process starts: empty, no write in progress. -/
def regInit : RegState :=
  { members := [], pending := none, tornRead := false }

/-! ## Concrete sample data

A tiny concrete chain used to exercise the theorems: the process starts
at head 1, the next head is block 2, which holds one transaction to the
watched address `0xabc` whose receipt is available (with a non-zero
status, i.e. as a go-ethereum "successful" flag — the poller never looks
at it). -/

def cexTx : Tx :=
  { to? := some "0xabc", hash := "h1", gasPrice? := some 0, data := [],
    sender? := none }

def cexRec : Receipt :=
  { effectiveGasPrice? := some 0, gasUsed := 0, status := 1 }

def cexBlk : Block :=
  { number := 2, time := 0, baseFee := 0, txs := [cexTx] }

def cexHead0 : Block :=
  { number := 1, time := 0, baseFee := 0, txs := [] }

/-- An iteration whose head is block 2, whose fetch serves exactly block
2, whose receipts serve exactly `cexTx`, whose watch set holds exactly
`0xabc`, and whose broker rejects every message. -/
def cexInput : IterInput :=
  { headRes := some cexBlk
    fetch := fun bn => if bn == 2 then some cexBlk else none
    receiptOf := fun h => if h == "h1" then some cexRec else none
    targets := fun a => a == "0xabc"
    sendRes := fun _ => false }

/-- An iteration whose head is block 2 but whose every block fetch
fails. -/
def exInputFail : IterInput :=
  { headRes := some cexBlk
    fetch := fun _ => none
    receiptOf := fun _ => none
    targets := fun _ => false
    sendRes := fun _ => true }

/-- A receipt without an effective gas price. -/
def cexRecNoEff : Receipt :=
  { effectiveGasPrice? := none, gasUsed := 5, status := 0 }

/-- A transaction with a stated gas price. -/
def cexTxPrice : Tx :=
  { to? := some "0xdef", hash := "h2", gasPrice? := some 7,
    data := [1, 2, 3, 4, 5], sender? := some "0xFEED" }

/-- An environment where only the RPC URL and tenant id are set. -/
def cexEnv : String → String := fun k =>
  if k = "ETH_RPC_URL" then "http://rpc.example"
  else if k = "TENANT_ID" then "t1" else ""

/-- An `Unmarshal` outcome that errors having populated nothing (a fully
malformed body, or a valid body of the wrong top-level shape). -/
def cexDecodeFail : String → List String × Bool := fun _ => ([], true)

/-- A valid-JSON body that is not of the expected shape: an `items`
array whose single element has `contract` equal to the number 5 instead
of a string (the braces in the literal are written as `\x7b`/`\x7d`
escapes). -/
def cexWrongShapeBody : String :=
  "\x7b\"items\":[\x7b\"contract\":5\x7d]\x7d"

/-- The `Unmarshal` outcome for `cexWrongShapeBody`: the number-vs-string
mismatch makes `Unmarshal` return an error, but it has populated
`out.Items` with one element whose `Contract` field keeps its zero value
`""` ("completes the unmarshaling as best it can"). -/
def cexDecodePartial : String → List String × Bool := fun _ => ([""], true)

/-! ## Lemmas about the scan loop -/

theorem processBlock_last (tenant : String) (inp : IterInput)
    (s : ScanState) (bn : Nat) :
    (processBlock tenant inp s bn).last = s.last := by
  cases h : inp.fetch bn <;> simp [processBlock, h]

theorem foldl_processBlock_last (tenant : String) (inp : IterInput) :
    ∀ (L : List Nat) (s : ScanState),
      (L.foldl (processBlock tenant inp) s).last = s.last := by
  intro L
  induction L with
  | nil => intro s; rfl
  | cons bn L ih =>
    intro s
    simp only [List.foldl_cons]
    rw [ih, processBlock_last]

/-- The cursor after one iteration: unchanged on a head-read failure or in
the idle branch, and exactly the head's number in the advancing branch. -/
theorem scanIter_last (tenant : String) (s : ScanState) (inp : IterInput) :
    (scanIter tenant s inp).last =
      match inp.headRes with
      | none => s.last
      | some hb => if hb.number ≤ s.last then s.last else hb.number := by
  cases h : inp.headRes with
  | none => simp [scanIter, h]
  | some hb =>
    by_cases hle : hb.number ≤ s.last <;> simp [scanIter, h, hle]

theorem scanIter_last_mono (tenant : String) (s : ScanState)
    (inp : IterInput) : s.last ≤ (scanIter tenant s inp).last := by
  rw [scanIter_last]
  cases h : inp.headRes with
  | none => exact Nat.le_refl _
  | some hb =>
    by_cases hle : hb.number ≤ s.last
    · simp [hle]
    · simp only [if_neg hle]
      omega

theorem scanRun_cons (tenant : String) (i : IterInput)
    (rest : List IterInput) (s : ScanState) :
    scanRun tenant (i :: rest) s = scanRun tenant rest (scanIter tenant s i) :=
  rfl

theorem scanRun_append (tenant : String) (xs ys : List IterInput)
    (s : ScanState) :
    scanRun tenant (xs ++ ys) s = scanRun tenant ys (scanRun tenant xs s) := by
  simp [scanRun, List.foldl_append]

theorem scanRun_last_mono (tenant : String) :
    ∀ (inputs : List IterInput) (s : ScanState),
      s.last ≤ (scanRun tenant inputs s).last := by
  intro inputs
  induction inputs with
  | nil => intro s; exact Nat.le_refl _
  | cons i rest ih =>
    intro s
    exact Nat.le_trans (scanIter_last_mono tenant s i) (ih (scanIter tenant s i))

theorem observedHeads_cons_none (i : IterInput) (rest : List IterInput)
    (h : i.headRes = none) :
    observedHeads (i :: rest) = observedHeads rest := by
  simp [observedHeads, h]

theorem observedHeads_cons_some (i : IterInput) (rest : List IterInput)
    (b : Block) (h : i.headRes = some b) :
    observedHeads (i :: rest) = b.number :: observedHeads rest := by
  simp [observedHeads, h]

theorem lastObserved_cons (h0 : Nat) (i : IterInput)
    (rest : List IterInput) :
    lastObserved h0 (i :: rest) =
      lastObserved (match i.headRes with | some b => b.number | none => h0)
        rest := by
  cases h : i.headRes <;> simp [lastObserved, h]

/-- Under the no-reorg assumption the cursor never exceeds the most
recently observed head. -/
theorem scanRun_last_le_lastObserved (tenant : String) :
    ∀ (inputs : List IterInput) (s : ScanState) (h0 : Nat),
      s.last ≤ h0 → headsChain h0 inputs →
      (scanRun tenant inputs s).last ≤ lastObserved h0 inputs := by
  intro inputs
  induction inputs with
  | nil => intro s h0 hle _; simpa [scanRun, lastObserved] using hle
  | cons i rest ih =>
    intro s h0 hle hchain
    rw [scanRun, List.foldl_cons, ← scanRun]
    cases hh : i.headRes with
    | none =>
      have hchain' : headsChain h0 rest := by
        unfold headsChain at hchain ⊢
        rwa [observedHeads_cons_none i rest hh] at hchain
      have hlast : (scanIter tenant s i).last = s.last := by
        rw [scanIter_last, hh]
      rw [lastObserved_cons, hh]
      exact ih (scanIter tenant s i) h0 (by rw [hlast]; exact hle) hchain'
    | some b =>
      have hchain0 : h0 ≤ b.number ∧
          List.Chain' (fun a c => a ≤ c) (b.number :: observedHeads rest) := by
        unfold headsChain at hchain
        rw [observedHeads_cons_some i rest b hh] at hchain
        exact ⟨(List.chain'_cons.mp hchain).1, (List.chain'_cons.mp hchain).2⟩
      have hchain' : headsChain b.number rest := hchain0.2
      have hlast : (scanIter tenant s i).last ≤ b.number := by
        rw [scanIter_last, hh]
        by_cases hle2 : b.number ≤ s.last
        · simp only [if_pos hle2]
          omega
        · simp [hle2]
      rw [lastObserved_cons, hh]
      exact ih (scanIter tenant s i) b.number hlast hchain'

/-- An event produced by `processTx` carries the number of the block it
was found in. -/
theorem processTx_blockNumber (tenant : String) (targets : String → Bool)
    (receiptOf : String → Option Receipt) (blk : Block) (tx : Tx)
    (ev : Event) (h : processTx tenant targets receiptOf blk tx = some ev) :
    ev.blockNumber = blk.number := by
  unfold processTx at h
  cases htx : tx.to? with
  | none => rw [htx] at h; exact absurd h (by simp)
  | some toHex =>
    rw [htx] at h
    simp only at h
    by_cases ht : targets (lowerStr toHex)
    · rw [if_pos ht] at h
      cases hr : receiptOf tx.hash with
      | none => rw [hr] at h; exact absurd h (by simp)
      | some rec =>
        rw [hr] at h
        have : buildEvent tenant blk tx (lowerStr toHex) rec = ev :=
          Option.some.inj h
        rw [← this]
        rfl
    · rw [if_neg ht] at h
      exact absurd h (by simp)

/-- Per-block processing: new events come from the processed number, the
ghost fetch trace gains exactly that number, and the cursor is untouched. -/
theorem processBlock_spec (tenant : String) (inp : IterInput)
    (s : ScanState) (bn : Nat) (hc : fetchConsistent inp) :
    (∀ ev ∈ (processBlock tenant inp s bn).events,
      ev ∈ s.events ∨ ev.blockNumber = bn) ∧
    (∀ b ∈ (processBlock tenant inp s bn).fetched,
      b ∈ s.fetched ∨ b = bn) := by
  cases h : inp.fetch bn with
  | none =>
    constructor
    · intro ev hev; left; simpa [processBlock, h] using hev
    · intro b hb
      simpa [processBlock, h] using hb
  | some blk =>
    constructor
    · intro ev hev
      rcases (by simpa [processBlock, h] using hev :
          ev ∈ s.events ∨ ∃ tx ∈ blk.txs,
            processTx tenant inp.targets inp.receiptOf blk tx = some ev) with
        h1 | ⟨tx, _, hp⟩
      · exact Or.inl h1
      · exact Or.inr (by
          rw [processTx_blockNumber tenant inp.targets inp.receiptOf blk tx ev
            hp]
          exact hc bn blk h)
    · intro b hb
      simpa [processBlock, h] using hb

theorem foldl_processBlock_spec (tenant : String) (inp : IterInput)
    (hc : fetchConsistent inp) :
    ∀ (L : List Nat) (s : ScanState),
      (∀ ev ∈ (L.foldl (processBlock tenant inp) s).events,
        ev ∈ s.events ∨ ∃ bn ∈ L, ev.blockNumber = bn) ∧
      (∀ b ∈ (L.foldl (processBlock tenant inp) s).fetched,
        b ∈ s.fetched ∨ b ∈ L) := by
  intro L
  induction L with
  | nil => intro s; exact ⟨fun ev hev => Or.inl hev, fun b hb => Or.inl hb⟩
  | cons bn L ih =>
    intro s
    simp only [List.foldl_cons]
    constructor
    · intro ev hev
      rcases (ih (processBlock tenant inp s bn)).1 ev hev with h1 | ⟨b2, hb2, he⟩
      · rcases (processBlock_spec tenant inp s bn hc).1 ev h1 with h3 | h4
        · exact Or.inl h3
        · exact Or.inr ⟨bn, List.mem_cons_self bn L, h4⟩
      · exact Or.inr ⟨b2, List.mem_cons_of_mem bn hb2, he⟩
    · intro b hb
      rcases (ih (processBlock tenant inp s bn)).2 b hb with h1 | h2
      · rcases (processBlock_spec tenant inp s bn hc).2 b h1 with h3 | h4
        · exact Or.inl h3
        · exact Or.inr (h4 ▸ List.mem_cons_self bn L)
      · exact Or.inr (List.mem_cons_of_mem bn h2)

/-- One iteration only ever touches block numbers above the cursor. -/
theorem scanIter_spec (tenant : String) (s : ScanState) (inp : IterInput)
    (hc : fetchConsistent inp) :
    (∀ ev ∈ (scanIter tenant s inp).events,
      ev ∈ s.events ∨ s.last < ev.blockNumber) ∧
    (∀ b ∈ (scanIter tenant s inp).fetched,
      b ∈ s.fetched ∨ s.last < b) := by
  cases h : inp.headRes with
  | none =>
    constructor
    · intro ev hev; exact Or.inl (by simpa [scanIter, h] using hev)
    · intro b hb; exact Or.inl (by simpa [scanIter, h] using hb)
  | some hb =>
    by_cases hle : hb.number ≤ s.last
    · constructor
      · intro ev hev; exact Or.inl (by simpa [scanIter, h, hle] using hev)
      · intro b hbm; exact Or.inl (by simpa [scanIter, h, hle] using hbm)
    · have hspec := foldl_processBlock_spec tenant inp hc
        (List.range' (s.last + 1) (hb.number - s.last)) s
      constructor
      · intro ev hev
        have hev' : ev ∈ ((List.range' (s.last + 1)
            (hb.number - s.last)).foldl (processBlock tenant inp) s).events := by
          simpa [scanIter, h, hle] using hev
        rcases hspec.1 ev hev' with h1 | ⟨bn, hbn, he⟩
        · exact Or.inl h1
        · refine Or.inr ?_
          have := (List.mem_range'_1).mp hbn
          omega
      · intro b hbm
        have hbm' : b ∈ ((List.range' (s.last + 1)
            (hb.number - s.last)).foldl (processBlock tenant inp) s).fetched := by
          simpa [scanIter, h, hle] using hbm
        rcases hspec.2 b hbm' with h1 | h2
        · exact Or.inl h1
        · refine Or.inr ?_
          have := (List.mem_range'_1).mp h2
          omega

/-- Run-level no-backfill invariant. -/
theorem scanRun_spec (tenant : String) :
    ∀ (inputs : List IterInput) (s : ScanState) (N : Nat),
      (∀ i ∈ inputs, fetchConsistent i) →
      N ≤ s.last →
      (∀ ev ∈ s.events, N < ev.blockNumber) →
      (∀ b ∈ s.fetched, N < b) →
      (∀ ev ∈ (scanRun tenant inputs s).events, N < ev.blockNumber) ∧
      (∀ b ∈ (scanRun tenant inputs s).fetched, N < b) := by
  intro inputs
  induction inputs with
  | nil => intro s N _ _ hev hf; exact ⟨hev, hf⟩
  | cons i rest ih =>
    intro s N hc hN hev hf
    rw [scanRun, List.foldl_cons, ← scanRun]
    have hci : fetchConsistent i := hc i (List.mem_cons_self i rest)
    have hc' : ∀ j ∈ rest, fetchConsistent j :=
      fun j hj => hc j (List.mem_cons_of_mem i hj)
    have hN' : N ≤ (scanIter tenant s i).last :=
      Nat.le_trans hN (scanIter_last_mono tenant s i)
    have hev' : ∀ ev ∈ (scanIter tenant s i).events, N < ev.blockNumber := by
      intro ev he
      rcases (scanIter_spec tenant s i hci).1 ev he with h1 | h2
      · exact hev ev h1
      · omega
    have hf' : ∀ b ∈ (scanIter tenant s i).fetched, N < b := by
      intro b hbm
      rcases (scanIter_spec tenant s i hci).2 b hbm with h1 | h2
      · exact hf b h1
      · omega
    exact ih (scanIter tenant s i) N hc' hN' hev' hf'

/-- Replacing the broker-acknowledgement oracle changes nothing: the code
discards `SendMessage`'s results. -/
theorem scanIter_sendRes (tenant : String) (s : ScanState)
    (inp : IterInput) (f : Event → Bool) :
    scanIter tenant s { inp with sendRes := f } = scanIter tenant s inp := rfl

/-! ## The claims -/

/-- Claim C1. The claim that the watch registry's membership set is
accessed under mutual exclusion is false of this program and the spec's
own requirement is the intent: the scan loop's `targets[to]` read
(line 127) and the subscriber goroutine's map mutation (lines 210–212)
are performed with no synchronization whatsoever, so an interleaving is
reachable in which the scanner reads while the subscriber's
`mapassign` is in progress — the reader observes a partially-applied
mutation (the Go runtime aborts with "concurrent map read and map
write"). The mutation used is exactly the one `ConsumeClaim` derives
from an "add" watch-request for the scanner's own tenant. -/
theorem C1_registry_read_during_write :
    consumeWatchMsg "t1"
      { tenantId := "t1", contract := "0xAbC", action := "add" } =
      some (RegOp.add "0xabc") ∧
    ∃ s : RegState,
      Relation.ReflTransGen RegStep regInit s ∧ s.tornRead = true := by
  refine ⟨by decide, ?_⟩
  refine ⟨{ members := [], pending := some (RegOp.add "0xabc"),
            tornRead := true }, ?_, rfl⟩
  have h1 : RegStep regInit
      { members := [], pending := some (RegOp.add "0xabc"),
        tornRead := false } :=
    RegStep.subBegin regInit (RegOp.add "0xabc") rfl
  have h2 : RegStep
      { members := [], pending := some (RegOp.add "0xabc"),
        tornRead := false }
      { members := [], pending := some (RegOp.add "0xabc"),
        tornRead := true } := by
    have hs := RegStep.scanRead
      { members := [], pending := some (RegOp.add "0xabc"),
        tornRead := false } "0xabc"
    simpa using hs
  exact Relation.ReflTransGen.head h1 (Relation.ReflTransGen.single h2)

/-- Claim C2. The claim of exact integer arithmetic with no floating
point until display fails on the code: lines 157–170 convert every
monetary output through `big.Float` and `float64` before the payload is
built, and for gasUsed = 21000, effectivePrice = 20·10⁹ wei the
published `costEth` is the binary64 value 7747632510958012·2⁻⁶⁴, not
exactly 0.00042 = 21/50000 — although the exact integer computation
effectivePrice · gasUsed / 10¹⁸ would give exactly 21/50000. -/
theorem C2_cost_float_not_exact :
    costEthOf 20000000000 21000 ≠ (21 : ℚ) / 50000 ∧
    costEthOf 20000000000 21000 =
      (7747632510958012 : ℚ) / 18446744073709551616 ∧
    ((20000000000 : ℚ) * 21000) / 1000000000000000000 = (21 : ℚ) / 50000 := by
  refine ⟨by decide, by decide, by norm_num⟩

/-- Claim C3. The cursor starts at the observed head, never decreases as
the run is extended, never exceeds the most recently observed head under
the spec's no-reorg assumption (head observations non-decreasing), and
an advancing iteration sets it to exactly the head's number — whatever
the per-block fetch outcomes were. -/
theorem C3_cursor_invariants (tenant : String) (head0 : Block)
    (inputs extra : List IterInput) :
    (initState head0).last = head0.number ∧
    (scanRun tenant inputs (initState head0)).last ≤
      (scanRun tenant (inputs ++ extra) (initState head0)).last ∧
    (headsChain head0.number inputs →
      (scanRun tenant inputs (initState head0)).last ≤
        lastObserved head0.number inputs) ∧
    (∀ (s : ScanState) (inp : IterInput) (hb : Block),
      inp.headRes = some hb → s.last < hb.number →
      (scanIter tenant s inp).last = hb.number) := by
  refine ⟨rfl, ?_, ?_, ?_⟩
  · rw [scanRun_append]
    exact scanRun_last_mono tenant extra _
  · intro hchain
    exact scanRun_last_le_lastObserved tenant inputs (initState head0)
      head0.number (Nat.le_refl _) hchain
  · intro s inp hb hres hlt
    rw [scanIter_last, hres]
    exact if_neg (Nat.not_le.mpr hlt)

/-- Claim C3 witness: a concrete run observing heads 1 then 2, in which
every block fetch fails, still advances the cursor to exactly 2 and
stays within the observed head. -/
theorem C3_cursor_invariants_witness :
    (scanRun "t1" [exInputFail] (initState cexHead0)).last ≤
      lastObserved cexHead0.number [exInputFail] ∧
    (scanIter "t1" (initState cexHead0) exInputFail).last = cexBlk.number := by
  constructor
  · exact (C3_cursor_invariants "t1" cexHead0 [exInputFail] []).2.2.1
      (by simp [headsChain, observedHeads, exInputFail, cexBlk, cexHead0])
  · exact (C3_cursor_invariants "t1" cexHead0 [exInputFail] []).2.2.2
      (initState cexHead0) exInputFail cexBlk rfl (by decide)

/-- Claim C4 counterexample: with `KAFKA_BROKER` and `KAFKA_TOPIC`
absent from the environment but the RPC URL and tenant present, the
process does not refuse to start — it starts with the silently
substituted defaults `kafka:9092` and `onchain-gas`, contradicting the
claim for the broker address and the output topic name. -/
theorem C4_required_config_counterexample :
    cexEnv "KAFKA_BROKER" = "" ∧ cexEnv "KAFKA_TOPIC" = "" ∧
    loadConfig cexEnv =
      some { broker := "kafka:9092", topic := "onchain-gas",
             rpcURL := "http://rpc.example", tenant := "t1" } := by
  refine ⟨by decide, by decide, by decide⟩

/-- Claim C4 amended: only the chain RPC endpoint URL and the tenant
identifier are required — the process refuses to start exactly when one
of them is absent; the broker address and topic name silently fall back
to the defaults `kafka:9092` and `onchain-gas` when absent. -/
theorem C4_required_config_amended (env : String → String) :
    (loadConfig env = none ↔
      env "ETH_RPC_URL" = "" ∨ env "TENANT_ID" = "") ∧
    (∀ c : Config, loadConfig env = some c →
      c.broker = getenv env "KAFKA_BROKER" "kafka:9092" ∧
      c.topic = getenv env "KAFKA_TOPIC" "onchain-gas" ∧
      c.rpcURL = env "ETH_RPC_URL" ∧
      c.tenant = env "TENANT_ID") := by
  by_cases h1 : env "ETH_RPC_URL" = "" <;>
    by_cases h2 : env "TENANT_ID" = "" <;>
      simp [loadConfig, getenv, h1, h2]

/-- Claim C4 amended witness: the concrete environment missing the
broker and topic starts with the defaults. -/
theorem C4_required_config_amended_witness :
    Config.broker
        { broker := "kafka:9092", topic := "onchain-gas",
          rpcURL := "http://rpc.example", tenant := "t1" } =
      getenv cexEnv "KAFKA_BROKER" "kafka:9092" ∧
    Config.topic
        { broker := "kafka:9092", topic := "onchain-gas",
          rpcURL := "http://rpc.example", tenant := "t1" } =
      getenv cexEnv "KAFKA_TOPIC" "onchain-gas" ∧
    Config.rpcURL
        { broker := "kafka:9092", topic := "onchain-gas",
          rpcURL := "http://rpc.example", tenant := "t1" } =
      cexEnv "ETH_RPC_URL" ∧
    Config.tenant
        { broker := "kafka:9092", topic := "onchain-gas",
          rpcURL := "http://rpc.example", tenant := "t1" } =
      cexEnv "TENANT_ID" :=
  (C4_required_config_amended cexEnv).2
    { broker := "kafka:9092", topic := "onchain-gas",
      rpcURL := "http://rpc.example", tenant := "t1" } (by decide)

/-- Claim C5 counterexample: a concrete advancing iteration in which the
single matched transaction is handed to the producer, the broker's
acknowledgement for it is a failure, and the loop's log is nonetheless
empty — the publish failure is not logged (line 188 discards all of
`SendMessage`'s return values), contradicting the claim that a publish
failure is logged. -/
theorem C5_publish_failure_counterexample :
    (scanRun "t1" [cexInput] (initState cexHead0)).events =
      [buildEvent "t1" cexBlk cexTx "0xabc" cexRec] ∧
    cexInput.sendRes (buildEvent "t1" cexBlk cexTx "0xabc" cexRec) = false ∧
    (scanRun "t1" [cexInput] (initState cexHead0)).log = [] := by
  refine ⟨by decide, rfl, by decide⟩

/-- Claim C5 amended: publication is synchronous — the producer is a
`sarama.NewSyncProducer` with `Producer.Return.Successes = true`, so the
loop blocks until the broker acknowledges and only then continues — but
a publish failure is silently discarded rather than logged: the loop's
entire behaviour (events, cursor, log) is identical under every
acknowledgement oracle, nothing is retried, and the cursor still
advances (no rollback). -/
theorem C5_publish_result_discarded (tenant : String)
    (inputs : List IterInput) (f : Event → Bool) (s : ScanState) :
    scanRun tenant (inputs.map (fun i => { i with sendRes := f })) s =
      scanRun tenant inputs s ∧
    s.last ≤ (scanRun tenant inputs s).last := by
  constructor
  · induction inputs generalizing s with
    | nil => rfl
    | cons i rest ih =>
      simp only [List.map_cons, scanRun_cons, scanIter_sendRes]
      exact ih _
  · exact scanRun_last_mono tenant inputs s

/-- Claim C6. For every matched transaction the computed priority fee is
max(0, effectivePrice − block.baseFee): zero at or below the base fee
(never negative) and the positive difference above it. `priorityWeiOf`
is exactly the quantity `buildEvent` feeds the payload's priority-fee
field. -/
theorem C6_priority_fee (e b : ℤ) : priorityWeiOf e b = max 0 (e - b) := by
  rcases lt_or_le (e - b) 0 with h | h
  · simp [priorityWeiOf, h, max_eq_left h.le]
  · simp [priorityWeiOf, not_lt.mpr h, max_eq_right h]

/-- Claim C7. Starting at observed head N, the cursor is initialized to
N, every block number the loop ever requests from the RPC is greater
than N, and every published event's block number is greater than N — no
transaction of block N or earlier is ever emitted, whatever the watch
set becomes over time (the per-iteration `targets` snapshots are
arbitrary). Requires only that the RPC returns blocks carrying the
number they were requested under. -/
theorem C7_no_backfill (tenant : String) (head0 : Block)
    (inputs : List IterInput) (hc : ∀ i ∈ inputs, fetchConsistent i) :
    (initState head0).last = head0.number ∧
    (∀ ev ∈ (scanRun tenant inputs (initState head0)).events,
      head0.number < ev.blockNumber) ∧
    (∀ bn ∈ (scanRun tenant inputs (initState head0)).fetched,
      head0.number < bn) := by
  refine ⟨rfl, ?_⟩
  exact scanRun_spec tenant inputs (initState head0) head0.number hc
    (Nat.le_refl _) (by intro ev h; simp [initState] at h)
    (by intro b h; simp [initState] at h)

/-- Claim C7 witness: the concrete run starting at head 1 emits only the
block-2 event, and 1 < 2. -/
theorem C7_no_backfill_witness :
    (∀ i ∈ [cexInput], fetchConsistent i) ∧
    ∀ ev ∈ (scanRun "t1" [cexInput] (initState cexHead0)).events,
      cexHead0.number < ev.blockNumber := by
  have hc : ∀ i ∈ [cexInput], fetchConsistent i := by
    intro i hi
    rw [List.mem_singleton] at hi
    subst hi
    intro bn blk h
    simp only [cexInput] at h
    split at h
    · next heq =>
      injection h with h2
      simp only [beq_iff_eq] at heq
      rw [← h2, heq]
      rfl
    · exact absurd h (by simp)
  exact ⟨hc, (C7_no_backfill "t1" cexHead0 [cexInput] hc).2.1⟩

/-- Claim C8. The effective price used by the fee calculator is the
receipt's effective gas price when that field is present, and otherwise
the transaction's stated gas price. -/
theorem C8_effective_price (rec : Receipt) (tx : Tx) :
    (∀ p, rec.effectiveGasPrice? = some p → effPriceWeiOf rec tx = p) ∧
    (∀ g, rec.effectiveGasPrice? = none → tx.gasPrice? = some g →
      effPriceWeiOf rec tx = g) := by
  constructor
  · intro p hp
    simp [effPriceWeiOf, hp]
  · intro g hn hg
    simp [effPriceWeiOf, hn, hg]

/-- Claim C8 witness: both branches at concrete receipts. -/
theorem C8_effective_price_witness :
    effPriceWeiOf cexRec cexTx = 0 ∧
    effPriceWeiOf cexRecNoEff cexTxPrice = 7 :=
  ⟨(C8_effective_price cexRec cexTx).1 0 rfl,
   (C8_effective_price cexRecNoEff cexTxPrice).2 7 rfl rfl⟩

/-- Claim C9. A transaction to a watched address whose receipt is
fetched is always published: `processTx` produces the event whatever the
receipt's execution status, and the payload does not depend on the
status — `buildEvent` never reads it, and the `Event` type built from
the payload literal (lines 171–185) carries no status field. -/
theorem C9_receipt_status_ignored (tenant : String)
    (targets : String → Bool) (receiptOf : String → Option Receipt)
    (blk : Block) (tx : Tx) (a : String) (rec : Receipt)
    (h1 : tx.to? = some a) (h2 : targets (lowerStr a) = true)
    (h3 : receiptOf tx.hash = some rec) :
    processTx tenant targets receiptOf blk tx =
      some (buildEvent tenant blk tx (lowerStr a) rec) ∧
    ∀ st : Nat,
      buildEvent tenant blk tx (lowerStr a)
        { effectiveGasPrice? := rec.effectiveGasPrice?,
          gasUsed := rec.gasUsed, status := st } =
      buildEvent tenant blk tx (lowerStr a) rec := by
  constructor
  · simp [processTx, h1, h2, h3]
  · intro st
    rfl

/-- Claim C9 witness: the concrete matched transaction is published, and
replacing its receipt's status leaves the payload unchanged. -/
theorem C9_receipt_status_ignored_witness :
    processTx "t1" cexInput.targets cexInput.receiptOf cexBlk cexTx =
      some (buildEvent "t1" cexBlk cexTx (lowerStr "0xabc") cexRec) ∧
    buildEvent "t1" cexBlk cexTx (lowerStr "0xabc")
        { effectiveGasPrice? := cexRec.effectiveGasPrice?,
          gasUsed := cexRec.gasUsed, status := 0 } =
      buildEvent "t1" cexBlk cexTx (lowerStr "0xabc") cexRec := by
  have h := C9_receipt_status_ignored "t1" cexInput.targets
    cexInput.receiptOf cexBlk cexTx "0xabc" cexRec rfl (by decide) (by decide)
  exact ⟨h.1, h.2 0⟩

/-- Claim C10 counterexample: for the valid-JSON wrong-shape body
(an `items` array whose element's `contract` is the number 5),
`Unmarshal` errors yet has populated one zero-valued element, so the
code seeds one `""` watch and logs "loaded 1 watches" — not zero
watches, and distinguishable from the empty-watch-list outcome, which
refutes the claim on part of its stated scope. -/
theorem C10_bootstrap_partial_decode_counterexample :
    (cexDecodePartial cexWrongShapeBody).2 = true ∧
    (bootstrapTargets (some cexWrongShapeBody) cexDecodePartial).1 =
      [""] ∧
    (bootstrapTargets (some cexWrongShapeBody) cexDecodePartial).2 =
      [BootLog.loaded 1] ∧
    bootstrapTargets (some cexWrongShapeBody) cexDecodePartial ≠
      bootstrapTargets (some cexWrongShapeBody) (fun _ => ([], false)) := by
  refine ⟨rfl, rfl, rfl, by decide⟩

/-- Claim C10 amended. On a bootstrap HTTP success the `Unmarshal` error
is discarded and never reported or logged: the seeded registry and the
"loaded N watches" log line depend only on the items `Unmarshal`
populated, so any two decode outcomes with the same populated items are
indistinguishable whatever their error flags, and a decode failure that
populated nothing (malformed JSON, wrong top-level shape) is
indistinguishable from a genuinely empty watch list; the function
returns normally so scanning starts either way. -/
theorem C10_bootstrap_error_discarded (body : String)
    (decode : String → List String × Bool) :
    bootstrapTargets (some body) decode =
      ((decode body).1.map lowerStr,
        [BootLog.loaded (decode body).1.length]) ∧
    (∀ decode2 : String → List String × Bool,
      (decode2 body).1 = (decode body).1 →
      bootstrapTargets (some body) decode2 =
        bootstrapTargets (some body) decode) ∧
    ((decode body).1 = [] →
      bootstrapTargets (some body) decode =
        bootstrapTargets (some body) (fun _ => ([], false))) := by
  refine ⟨rfl, ?_, ?_⟩
  · intro decode2 hsame
    simp [bootstrapTargets, hsame]
  · intro hempty
    simp [bootstrapTargets, hempty]

/-- Claim C10 amended witness: at a concrete malformed body, a
populate-nothing erroring decode yields the empty registry with the
normal "loaded 0 watches" line, and is indistinguishable from the
error-free empty decode in either direction. -/
theorem C10_bootstrap_error_discarded_witness :
    bootstrapTargets (some "not json") cexDecodeFail =
      ([], [BootLog.loaded 0]) ∧
    bootstrapTargets (some "not json") (fun _ => ([], false)) =
      bootstrapTargets (some "not json") cexDecodeFail ∧
    bootstrapTargets (some "not json") cexDecodeFail =
      bootstrapTargets (some "not json") (fun _ => ([], false)) :=
  ⟨(C10_bootstrap_error_discarded "not json" cexDecodeFail).1,
   (C10_bootstrap_error_discarded "not json" cexDecodeFail).2.1
     (fun _ => ([], false)) rfl,
   (C10_bootstrap_error_discarded "not json" cexDecodeFail).2.2 rfl⟩

end GasMonitor
